import Mathlib

/-!
# strfry: the Python extension module of the string-comparison library

A shallow embedding of `strfrymodule.c`.  The file defines the six entry
points of the extension module (`strfry_jaro_winkler`, `strfry_jaro_distance`,
`strfry_hamming_distance`, `strfry_levenshtein_distance`, `strfry_soundex`,
`strfry_metaphone`) and the module initialiser `initstrfry`.

The core routines the entry points call (`jaro_winkler`, `jaro_distance`,
`hamming_distance`, `levenshtein_distance`, `soundex`, `metaphone`) are declared
in `strfry.h`, which is not part of the source tree.  Every entry point takes
the routine it calls as an argument; the second half of the definitions models
the routines from the written specification.

Conventions.
* A C string (`const char *`) is a list of byte values; what C code reads from
  it is the run of bytes before the first zero byte (`cstr`).
* The C type `double` is a type parameter `D`: the entry points only move
  doubles around, and the modelled metrics use `D` through its arithmetic
  operations only.
* `unsigned` is a natural number reduced modulo `2 ^ 32`.
-/

namespace Strfry

/-! ## Python objects, errors, C strings -/

/-- Memory read through a `char *`. -/
abbrev CStr := List Nat

/-- The C string stored at a `char *`: the bytes before the first NUL. -/
def cstr (m : CStr) : CStr := m.takeWhile (fun b => b != 0)

/-- Python 2 objects as far as the module tells them apart.  `str` carries its
bytes, `unicode` its code points, `float` a C double. -/
inductive PyObj (D : Type) where
  | none
  | bool (b : Bool)
  | int (n : Int)
  | float (d : D)
  | str (bytes : List Nat)
  | unicode (cps : List Nat)
  | other (tag : Nat)
  deriving DecidableEq, Repr

/-- Exceptions an entry point can leave set when it returns `NULL`. -/
inductive PyErr where
  | TypeError (msg : String)
  | UnicodeEncodeError
  deriving DecidableEq, Repr

/-- The check `PyString_Check`. -/
def PyString_Check {D : Type} : PyObj D → Bool
  | .str _ => true
  | _ => false

/-- The check `PyUnicode_Check`. -/
def PyUnicode_Check {D : Type} : PyObj D → Bool
  | .unicode _ => true
  | _ => false

/-- The macro `PyString_AS_STRING` (and `PyString_AsString` on a string
object): a pointer to the object's buffer, read as a C string. -/
def PyString_AS_STRING (bytes : List Nat) : CStr := cstr bytes

/-- UTF-8 encoding of one code point. -/
def utf8 (c : Nat) : List Nat :=
  if c < 0x80 then [c]
  else if c < 0x800 then [0xC0 + c / 64, 0x80 + c % 64]
  else if c < 0x10000 then [0xE0 + c / 4096, 0x80 + c / 64 % 64, 0x80 + c % 64]
  else [0xF0 + c / 262144 % 8, 0x80 + c / 4096 % 64, 0x80 + c / 64 % 64, 0x80 + c % 64]

/-- The call `PyUnicode_AsUTF8String`: the bytes of the encoded string object. -/
def PyUnicode_AsUTF8String (cps : List Nat) : List Nat := (cps.map utf8).flatten

/-- The call `Py_BuildValue("d", result)`. -/
def Py_BuildValue_d {D : Type} (result : D) : PyObj D := .float result

/-- The call `Py_BuildValue("I", result)` on an `unsigned`. -/
def Py_BuildValue_I {D : Type} (result : Nat) : PyObj D := .int (result : Int)

/-- The call `Py_BuildValue("s", result)`: a `str` copied from a C string, or
`None` when the pointer is `NULL`.  No exception is set in either case. -/
def Py_BuildValue_s {D : Type} : Option CStr → PyObj D
  | some result => .str (cstr result)
  | Option.none => .none

/-- Storing a value in a C `unsigned`. -/
def toUnsigned (n : Nat) : Nat := n % 2 ^ 32

/-! ## Argument parsing -/

/-- Format unit `s`: a `str` without embedded NUL, or a `unicode` object encoded
with the default (ASCII) encoding.  The bytes returned hold no NUL, so they are
the C string the caller reads. -/
def convert_s {D : Type} : PyObj D → Except PyErr CStr
  | .str b =>
    if b.all (fun c => c != 0) then .ok b
    else .error (.TypeError "must be string without null bytes")
  | .unicode u =>
    if u.all (fun c => decide (c < 128)) then
      if u.all (fun c => c != 0) then .ok u
      else .error (.TypeError "must be string without null bytes")
    else .error .UnicodeEncodeError
  | _ => .error (.TypeError "must be string")

/-- Format unit `B`: a Python integer stored in an `unsigned char` without
overflow checking. -/
def convert_B {D : Type} : PyObj D → Except PyErr Nat
  | .bool b => .ok (if b then 1 else 0)
  | .int n => .ok (n % 256).toNat
  | _ => .error (.TypeError "an integer is required")

/-- The keyword list shared by the three entry points that take `ignore_case`. -/
def kwlist : List String := ["string1", "string2", "ignore_case"]

/-- The object bound to parameter `i`: given by position, else by name. -/
def boundArg {D : Type} (args : List (PyObj D)) (keywds : List (String × PyObj D))
    (i : Nat) : Option (PyObj D) :=
  match args.get? i with
  | some v => some v
  | Option.none => (kwlist.get? i).bind (fun k => keywds.lookup k)

/-- The call `PyArg_ParseTupleAndKeywords(args, keywds, "ss|B", kwlist, &s1, &s2,
&ignore_case)`.  The last argument is the value `ignore_case` holds before the
call: the optional unit leaves the variable untouched when no object is bound
to it.  A byte other than zero stored in the `bool` reads as true. -/
def PyArg_ParseTupleAndKeywords_ssB {D : Type} (args : List (PyObj D))
    (keywds : List (String × PyObj D)) (ignore_case : Bool) :
    Except PyErr (CStr × CStr × Bool) :=
  if 3 < args.length + keywds.length then
    .error (.TypeError "function takes at most 3 arguments")
  else if keywds.any (fun kv => decide (kwlist.indexOf kv.1 < args.length)) then
    .error (.TypeError "argument given by name and position")
  else if keywds.any (fun kv => !(kwlist.contains kv.1)) then
    .error (.TypeError "invalid keyword argument for this function")
  else
    match boundArg args keywds 0, boundArg args keywds 1 with
    | some a, some b =>
      match convert_s a with
      | .error e => .error e
      | .ok s1 =>
        match convert_s b with
        | .error e => .error e
        | .ok s2 =>
          match boundArg args keywds 2 with
          | Option.none => .ok (s1, s2, ignore_case)
          | some c =>
            match convert_B c with
            | .error e => .error e
            | .ok v => .ok (s1, s2, v != 0)
    | _, _ => .error (.TypeError "required argument missing")

/-- The call `PyArg_ParseTuple(args, "ss", &s1, &s2)`. -/
def PyArg_ParseTuple_ss {D : Type} (args : List (PyObj D)) : Except PyErr (CStr × CStr) :=
  match args with
  | [a, b] =>
    match convert_s a with
    | .error e => .error e
    | .ok s1 =>
      match convert_s b with
      | .error e => .error e
      | .ok s2 => .ok (s1, s2)
  | _ => .error (.TypeError "function takes exactly 2 arguments")

/-- The call `PyArg_ParseTuple(args, "O", &pystr)`. -/
def PyArg_ParseTuple_O {D : Type} (args : List (PyObj D)) : Except PyErr (PyObj D) :=
  match args with
  | [o] => .ok o
  | _ => .error (.TypeError "function takes exactly 1 argument")

/-! ## Module state -/

/-- A callable with the signature of `unicodedata.normalize(form, unistr)`. -/
abbrev NormalizeFn := String → List Nat → List Nat

/-- The imported module `unicodedata`, as far as `initstrfry` looks at it. -/
structure Unicodedata where
  normalize : NormalizeFn

/-- The module-level variables: `static PyObject *normalize`. -/
structure ModuleState where
  normalize : NormalizeFn

/-- The initialiser `initstrfry`: `normalize` is set to the attribute
`normalize` of the imported `unicodedata`. -/
def initstrfry (unicodedata : Unicodedata) : ModuleState :=
  { normalize := unicodedata.normalize }

/-! ## Entry points -/

/-- The entry point `strfry_jaro_winkler`. -/
def strfry_jaro_winkler {D : Type} (jaro_winkler : CStr → CStr → Bool → Bool → D)
    (args : List (PyObj D)) (keywds : List (String × PyObj D)) : Except PyErr (PyObj D) :=
  let ignore_case := true
  match PyArg_ParseTupleAndKeywords_ssB args keywds ignore_case with
  | .error e => .error e
  | .ok (s1, s2, ignore_case) =>
    let result := jaro_winkler s1 s2 ignore_case false
    .ok (Py_BuildValue_d result)

/-- The entry point `strfry_jaro_distance`. -/
def strfry_jaro_distance {D : Type} (jaro_distance : CStr → CStr → Bool → D)
    (args : List (PyObj D)) (keywds : List (String × PyObj D)) : Except PyErr (PyObj D) :=
  let ignore_case := true
  match PyArg_ParseTupleAndKeywords_ssB args keywds ignore_case with
  | .error e => .error e
  | .ok (s1, s2, ignore_case) =>
    let result := jaro_distance s1 s2 ignore_case
    .ok (Py_BuildValue_d result)

/-- The entry point `strfry_hamming_distance`. -/
def strfry_hamming_distance {D : Type} (hamming_distance : CStr → CStr → Bool → Nat)
    (args : List (PyObj D)) (keywds : List (String × PyObj D)) : Except PyErr (PyObj D) :=
  let ignore_case := true
  match PyArg_ParseTupleAndKeywords_ssB args keywds ignore_case with
  | .error e => .error e
  | .ok (s1, s2, ignore_case) =>
    let result := toUnsigned (hamming_distance s1 s2 ignore_case)
    .ok (Py_BuildValue_I result)

/-- The entry point `strfry_levenshtein_distance`. -/
def strfry_levenshtein_distance {D : Type} (levenshtein_distance : CStr → CStr → Nat)
    (args : List (PyObj D)) : Except PyErr (PyObj D) :=
  match PyArg_ParseTuple_ss args with
  | .error e => .error e
  | .ok (s1, s2) =>
    let result := toUnsigned (levenshtein_distance s1 s2)
    .ok (Py_BuildValue_I result)

/-- What a call of `strfry_soundex` or `strfry_metaphone` does: the value
returned (or the exception set), and the C strings the encoder was called
with, in order.  The encoders return a `char *`: `none` is the `NULL` pointer. -/
structure Outcome (D : Type) where
  ret : Except PyErr (PyObj D)
  encoded : List CStr

/-- The entry point `strfry_soundex`. -/
def strfry_soundex {D : Type} (st : ModuleState) (soundex : CStr → Option CStr)
    (args : List (PyObj D)) : Outcome D :=
  match PyArg_ParseTuple_O args with
  | .error e => { ret := .error e, encoded := [] }
  | .ok pystr =>
    match pystr with
    | .str bytes =>
      let result := soundex (PyString_AS_STRING bytes)
      { ret := .ok (Py_BuildValue_s result), encoded := [PyString_AS_STRING bytes] }
    | .unicode u =>
      let normalized := st.normalize "NFKD" u
      let pystr := PyUnicode_AsUTF8String normalized
      let result := soundex (PyString_AS_STRING pystr)
      { ret := .ok (Py_BuildValue_s result), encoded := [PyString_AS_STRING pystr] }
    | _ => { ret := .error (.TypeError "expected a str or unicode"), encoded := [] }

/-- The entry point `strfry_metaphone`. -/
def strfry_metaphone {D : Type} (st : ModuleState) (metaphone : CStr → Option CStr)
    (args : List (PyObj D)) : Outcome D :=
  match PyArg_ParseTuple_O args with
  | .error e => { ret := .error e, encoded := [] }
  | .ok pystr =>
    match pystr with
    | .str bytes =>
      let result := metaphone (PyString_AS_STRING bytes)
      { ret := .ok (Py_BuildValue_s result), encoded := [PyString_AS_STRING bytes] }
    | .unicode u =>
      let normalized := st.normalize "NFKD" u
      let pystr := PyUnicode_AsUTF8String normalized
      let result := metaphone (PyString_AS_STRING pystr)
      { ret := .ok (Py_BuildValue_s result), encoded := [PyString_AS_STRING pystr] }
    | _ => { ret := .error (.TypeError "expected a str or unicode"), encoded := [] }

/-- The byte of an ASCII character. -/
def ord (c : Char) : Nat := c.toNat

/-- The bytes of an ASCII string literal. -/
def bytes (s : String) : List Nat := s.toList.map Char.toNat

/-- Modelled from the spec: the case fold of the CaseFold flag (section 3),
absent from the source tree with the metrics.  Upper-case ASCII letters go to
lower case; comparisons of folded bytes are the same for either direction. -/
def foldCase (b : Nat) : Nat := if 65 ≤ b ∧ b ≤ 90 then b + 32 else b

/-- Modelled from the spec: "compare case-folded copies" when the flag is set
(sections 4.1, 4.2), the raw input otherwise. -/
def folded (ignore_case : Bool) (s : CStr) : CStr :=
  if ignore_case then s.map foldCase else s

/-- Modelled from the spec: section 4.1 step 1, the lowest unmarked position of
`s2` within `[lo, hi]` holding the character `c`. -/
def jaroFind (c : Nat) (s2 : CStr) (used : List Bool) (lo hi : Nat) : Option Nat :=
  (List.range s2.length).find? (fun j =>
    decide (lo ≤ j) && decide (j ≤ hi) && (s2.getD j 0 == c) && !(used.getD j true))

/-- Modelled from the spec: section 4.1 step 1, the matching pass over `s1` with
window `w`.  Returns the matched characters of `s1` in order and the marks on
the positions of `s2`. -/
def jaroMatch (s1 s2 : CStr) (w : Nat) : List Nat × List Bool :=
  (List.range s1.length).foldl
    (fun acc i =>
      match jaroFind (s1.getD i 0) s2 acc.2 (i - w) (i + w) with
      | some j => (acc.1 ++ [s1.getD i 0], acc.2.set j true)
      | Option.none => acc)
    ([], List.replicate s2.length false)

/-- Modelled from the spec: section 4.1 step 3, half the number of positions at
which the two matched subsequences differ. -/
def jaroTranspositions (m1 m2 : List Nat) : Nat :=
  ((m1.zip m2).filter (fun p => p.1 != p.2)).length / 2

/-- Modelled from the spec: section 4.1 steps 1 and 3 on two non-empty
strings, the number of matches `m` and the number of transpositions `t`. -/
def jaroCounts (a b : CStr) : Nat × Nat :=
  let w := max a.length b.length / 2 - 1
  let r := jaroMatch a b w
  let matched2 := ((b.zip r.2).filter (fun p => p.2)).map (fun p => p.1)
  (r.1.length, jaroTranspositions r.1 matched2)

/-- Modelled from the spec: `jaro_distance` of section 4.1, the routine of
`strfry.h` absent from the source tree. -/
def jaro_distance {D : Type} [NatCast D] [Add D] [Sub D] [Div D] [OfScientific D]
    (s1 s2 : CStr) (ignore_case : Bool) : D :=
  let a := folded ignore_case s1
  let b := folded ignore_case s2
  let len1 := a.length
  let len2 := b.length
  if len1 = 0 ∨ len2 = 0 then
    if len1 = 0 ∧ len2 = 0 then 1.0 else 0.0
  else
    let m := (jaroCounts a b).1
    let t := (jaroCounts a b).2
    if m = 0 then 0.0
    else ((m : D) / (len1 : D) + (m : D) / (len2 : D) + ((m : D) - (t : D)) / (m : D)) / 3.0

/-- Modelled from the spec: section 4.2, the number of leading characters equal
between the two strings, counted up to `cap`. -/
def commonLead : Nat → CStr → CStr → Nat
  | 0, _, _ => 0
  | _ + 1, [], _ => 0
  | _ + 1, _ :: _, [] => 0
  | cap + 1, a :: as, b :: bs => if a = b then commonLead cap as bs + 1 else 0

/-- Modelled from the spec: `jaro_winkler` of section 4.2, the routine of
`strfry.h` absent from the source tree.  The specification gives the routine
three arguments; the fourth one of the C signature is not described there and
is not looked at. -/
def jaro_winkler {D : Type} [NatCast D] [Add D] [Sub D] [Mul D] [Div D] [OfScientific D]
    (s1 s2 : CStr) (ignore_case : Bool) (_long_tolerance : Bool) : D :=
  let jd : D := jaro_distance s1 s2 ignore_case
  let l := commonLead 4 (folded ignore_case s1) (folded ignore_case s2)
  let p : D := 0.1
  jd + (l : D) * p * (1.0 - jd)

/-- Modelled from the spec: section 4.3, one cell of the row being filled and
the cells after it.  The second list is the previous row from the cell on the
diagonal on; `left` is the cell just filled. -/
def levRowStep (a : Nat) : CStr → List Nat → Nat → List Nat
  | b :: bs, diag :: up :: rest, left =>
    let v := if a = b then diag else 1 + min up (min left diag)
    v :: levRowStep a bs (up :: rest) v
  | _, _, _ => []

/-- Modelled from the spec: section 4.3, the row `d[i][0..n]` from the row
`d[i-1][0..n]` (rolling rows). -/
def levNextRow (a : Nat) (s2 : CStr) (prev : List Nat) : List Nat :=
  (prev.headD 0 + 1) :: levRowStep a s2 prev (prev.headD 0 + 1)

/-- Modelled from the spec: `levenshtein_distance` of section 4.3, the routine
of `strfry.h` absent from the source tree: dynamic programming over rolling
rows, started from the row `d[0][j] = j`. -/
def levenshtein_distance (s1 s2 : CStr) : Nat :=
  (s1.foldl (fun row a => levNextRow a s2 row) (List.range (s2.length + 1))).getLastD 0

/-- Modelled from the spec: the unit-cost edit-distance recurrence of section
4.3, as written: `d[i][0] = i`, `d[0][j] = j`, `d[i][j] = d[i-1][j-1]` when the characters are equal, else
one more than the least of the three neighbours. -/
def editRecurrence (s1 s2 : CStr) : Nat → Nat → Nat
  | 0, j => j
  | i + 1, 0 => i + 1
  | i + 1, j + 1 =>
    if s1.getD i 0 = s2.getD j 0 then editRecurrence s1 s2 i j
    else 1 + min (editRecurrence s1 s2 i (j + 1))
      (min (editRecurrence s1 s2 (i + 1) j) (editRecurrence s1 s2 i j))

/-- Modelled from the spec: the letters the encoders give meaning to (section
3), `A`-`Z` and `a`-`z`. -/
def isAsciiLetter (b : Nat) : Bool :=
  (decide (65 ≤ b) && decide (b ≤ 90)) || (decide (97 ≤ b) && decide (b ≤ 122))

/-- An ASCII digit. -/
def isAsciiDigit (b : Nat) : Bool := decide (48 ≤ b) && decide (b ≤ 57)

/-- Modelled from the spec: "the first letter, uppercased" (section 4.5 step
2); other bytes are left alone. -/
def toUpper (b : Nat) : Nat := if 97 ≤ b ∧ b ≤ 122 then b - 32 else b

/-- Modelled from the spec: the class table of section 4.5 step 3, on an
upper-case letter; `none` for the letters that get no digit. -/
def soundexDigit (u : Nat) : Option Nat :=
  if u ∈ bytes "BFPV" then some (ord '1')
  else if u ∈ bytes "CGJKQSXZ" then some (ord '2')
  else if u ∈ bytes "DT" then some (ord '3')
  else if u ∈ bytes "L" then some (ord '4')
  else if u ∈ bytes "MN" then some (ord '5')
  else if u ∈ bytes "R" then some (ord '6')
  else Option.none

/-- Modelled from the spec: section 4.5 steps 3 and 4 over the letters after
the first.  `prev` is the digit of the last letter that was not `H` or `W`
(`none` after a vowel or `Y`): `H` and `W` are transparent, a vowel or `Y`
separates, a digit equal to `prev` is dropped. -/
def soundexDigits (prev : Option Nat) : List Nat → List Nat
  | [] => []
  | u :: rest =>
    if u = ord 'H' ∨ u = ord 'W' then soundexDigits prev rest
    else
      match soundexDigit u with
      | Option.none => soundexDigits Option.none rest
      | some d =>
        if prev = some d then soundexDigits prev rest
        else d :: soundexDigits (some d) rest

/-- Modelled from the spec: `soundex` of section 4.5, the routine of `strfry.h`
absent from the source tree.  Non-letters are skipped; the first letter is
kept in upper case; the digits are padded with zeros or cut to three.  An
input without a letter gives the sentinel `0000` the specification proposes. -/
def soundex (s : CStr) : CStr :=
  match (s.filter isAsciiLetter).map toUpper with
  | [] => bytes "0000"
  | first :: rest =>
    first :: ((soundexDigits (soundexDigit first) rest) ++ bytes "000").take 3

/-- A callable that returns its argument unchanged. -/
def keepText : NormalizeFn := fun _ u => u

/-- The number of positions at which two strings differ, over the positions
both have. -/
def mismatches (a b : CStr) (_ignore_case : Bool) : Nat :=
  ((a.zip b).filter (fun p => p.1 != p.2)).length

/-! ## Lemmas on argument parsing -/

theorem convert_s_str {D : Type} (b : List Nat) (h : 0 ∉ b) :
    convert_s (PyObj.str b : PyObj D) = .ok b := by
  have hall : b.all (fun c => c != 0) = true := by
    rw [List.all_eq_true]
    intro c hc
    have : c ≠ 0 := fun h0 => h (h0 ▸ hc)
    simpa using this
  simp [convert_s, hall]

theorem cstr_of_no_nul (b : List Nat) (h : 0 ∉ b) : cstr b = b := by
  unfold cstr
  rw [List.takeWhile_eq_self_iff]
  intro c hc
  have : c ≠ 0 := fun h0 => h (h0 ▸ hc)
  simpa using this

theorem parse_positional_flag {D : Type} (a b : PyObj D) (flag : Bool) :
    PyArg_ParseTupleAndKeywords_ssB [a, b, .bool flag] [] true =
      (match convert_s a with
       | .error e => .error e
       | .ok s1 =>
         match convert_s b with
         | .error e => .error e
         | .ok s2 => .ok (s1, s2, flag)) := by
  cases flag <;>
    simp [PyArg_ParseTupleAndKeywords_ssB, boundArg, convert_B]

theorem parse_keyword_flag {D : Type} (a b : PyObj D) (flag : Bool) :
    PyArg_ParseTupleAndKeywords_ssB [a, b] [("ignore_case", .bool flag)] true =
      (match convert_s a with
       | .error e => .error e
       | .ok s1 =>
         match convert_s b with
         | .error e => .error e
         | .ok s2 => .ok (s1, s2, flag)) := by
  cases flag <;>
    simp [PyArg_ParseTupleAndKeywords_ssB, boundArg, convert_B, kwlist, List.lookup,
      List.indexOf, List.findIdx, List.findIdx.go]

theorem parse_flag_omitted {D : Type} (a b : PyObj D) :
    PyArg_ParseTupleAndKeywords_ssB [a, b] [] true =
      (match convert_s a with
       | .error e => .error e
       | .ok s1 =>
         match convert_s b with
         | .error e => .error e
         | .ok s2 => .ok (s1, s2, true)) := by
  simp [PyArg_ParseTupleAndKeywords_ssB, boundArg, kwlist, List.lookup]

theorem hamming_entry_eq {D : Type} (hamming_distance : CStr → CStr → Bool → Nat)
    (s1 s2 : List Nat) (ignore_case : Bool) (h1 : 0 ∉ s1) (h2 : 0 ∉ s2) :
    strfry_hamming_distance hamming_distance [.str s1, .str s2, .bool ignore_case] [] =
      .ok (PyObj.int ((hamming_distance s1 s2 ignore_case % 2 ^ 32 : Nat) : Int) : PyObj D) := by
  unfold strfry_hamming_distance
  simp only [parse_positional_flag, convert_s_str s1 h1, convert_s_str s2 h2]
  rfl

/-- C1 (amended): for byte strings of any lengths, equal or not, and either
value of the flag, the entry point `hamming_distance` returns the unsigned
count the core routine computed, as an integer object; no exception is set. -/
theorem hamming_entry_returns_count {D : Type} (hamming_distance : CStr → CStr → Bool → Nat)
    (s1 s2 : List Nat) (ignore_case : Bool) (h1 : 0 ∉ s1) (h2 : 0 ∉ s2) :
    strfry_hamming_distance hamming_distance [.str s1, .str s2, .bool ignore_case] [] =
        .ok (PyObj.int ((hamming_distance s1 s2 ignore_case % 2 ^ 32 : Nat) : Int) : PyObj D) ∧
      ∀ e : PyErr,
        strfry_hamming_distance hamming_distance
          [(.str s1 : PyObj D), .str s2, .bool ignore_case] [] ≠ .error e := by
  have h := hamming_entry_eq (D := D) hamming_distance s1 s2 ignore_case h1 h2
  refine ⟨h, fun e he => ?_⟩
  rw [h] at he
  cases he

/-- C1 (witness): the strings `ab` and `abc` of unequal length. -/
theorem hamming_entry_returns_count_witness :
    0 ∉ bytes "ab" ∧ 0 ∉ bytes "abc" ∧
      strfry_hamming_distance mismatches [.str (bytes "ab"), .str (bytes "abc"), .bool true] [] =
        .ok (PyObj.int 0 : PyObj ℚ) :=
  ⟨by decide, by decide,
    (hamming_entry_returns_count mismatches (bytes "ab") (bytes "abc") true
      (by decide) (by decide)).1⟩

/-- C1 (counterexample): on `("ab", "abc", True)` the entry point sets no
exception, whatever the core routine returns. -/
theorem hamming_length_mismatch_no_error :
    ¬ ∃ (hamming_distance : CStr → CStr → Bool → Nat) (e : PyErr),
      strfry_hamming_distance hamming_distance
        [(.str (bytes "ab") : PyObj ℚ), .str (bytes "abc"), .bool true] [] = .error e := by
  rintro ⟨hd, e, h⟩
  rw [hamming_entry_eq hd (bytes "ab") (bytes "abc") true (by decide) (by decide)] at h
  cases h

/-- C2: with the two strings given by position, leaving `ignore_case` out gives
the result of passing `True` for it, by position or by name, in
`jaro_winkler`, `jaro_distance` and `hamming_distance`. -/
theorem ignore_case_defaults_to_true {D : Type} (jaro_winkler : CStr → CStr → Bool → Bool → D)
    (jaro_distance : CStr → CStr → Bool → D) (hamming_distance : CStr → CStr → Bool → Nat)
    (a b : PyObj D) :
    (strfry_jaro_winkler jaro_winkler [a, b] [] =
        strfry_jaro_winkler jaro_winkler [a, b, .bool true] [] ∧
      strfry_jaro_winkler jaro_winkler [a, b] [] =
        strfry_jaro_winkler jaro_winkler [a, b] [("ignore_case", .bool true)]) ∧
    (strfry_jaro_distance jaro_distance [a, b] [] =
        strfry_jaro_distance jaro_distance [a, b, .bool true] [] ∧
      strfry_jaro_distance jaro_distance [a, b] [] =
        strfry_jaro_distance jaro_distance [a, b] [("ignore_case", .bool true)]) ∧
    (strfry_hamming_distance hamming_distance [a, b] [] =
        strfry_hamming_distance (D := D) hamming_distance [a, b, .bool true] [] ∧
      strfry_hamming_distance hamming_distance [a, b] [] =
        strfry_hamming_distance (D := D) hamming_distance [a, b]
          [("ignore_case", .bool true)]) := by
  unfold strfry_jaro_winkler strfry_jaro_distance strfry_hamming_distance
  simp only [parse_positional_flag, parse_keyword_flag, parse_flag_omitted, and_self]

/-- C8: called with one argument `x`, the entry points `soundex` and `metaphone`
fail exactly when `x` is neither a `str` nor a `unicode` object; the exception
is then the `TypeError` "expected a str or unicode", the encoder has not been
called and no object is returned. -/
theorem encoders_type_error {D : Type} (st : ModuleState)
    (soundex metaphone : CStr → Option CStr)
    (x : PyObj D) :
    (((strfry_soundex st soundex [x]).ret = .error (.TypeError "expected a str or unicode") ↔
        (PyString_Check x = false ∧ PyUnicode_Check x = false)) ∧
      ((∃ e, (strfry_soundex st soundex [x]).ret = .error e) ↔
        (PyString_Check x = false ∧ PyUnicode_Check x = false)) ∧
      ((PyString_Check x = false ∧ PyUnicode_Check x = false) →
        (strfry_soundex st soundex [x]).encoded = [] ∧
        ∀ v, (strfry_soundex st soundex [x]).ret ≠ .ok v)) ∧
    (((strfry_metaphone st metaphone [x]).ret =
          .error (.TypeError "expected a str or unicode") ↔
        (PyString_Check x = false ∧ PyUnicode_Check x = false)) ∧
      ((∃ e, (strfry_metaphone st metaphone [x]).ret = .error e) ↔
        (PyString_Check x = false ∧ PyUnicode_Check x = false)) ∧
      ((PyString_Check x = false ∧ PyUnicode_Check x = false) →
        (strfry_metaphone st metaphone [x]).encoded = [] ∧
        ∀ v, (strfry_metaphone st metaphone [x]).ret ≠ .ok v)) := by
  cases x <;>
    simp [strfry_soundex, strfry_metaphone, PyArg_ParseTuple_O, PyString_Check,
      PyUnicode_Check]

/-- C9: for a byte string `b` the entry points `soundex` and `metaphone` call
the encoder once, on the C string of `b` itself, and return its result; the
`normalize` handle plays no part.  For a unicode string `u` they call the
encoder once, on the UTF-8 encoding of what the handle returns for
`("NFKD", u)`, and return its result; after `initstrfry` the handle is
`unicodedata.normalize`. -/
theorem encoders_input {D : Type} (st : ModuleState)
    (soundex metaphone : CStr → Option CStr) :
    (∀ b : List Nat,
      strfry_soundex st soundex [(.str b : PyObj D)] =
        { ret := .ok (Py_BuildValue_s (soundex (PyString_AS_STRING b))),
          encoded := [PyString_AS_STRING b] } ∧
      strfry_metaphone st metaphone [(.str b : PyObj D)] =
        { ret := .ok (Py_BuildValue_s (metaphone (PyString_AS_STRING b))),
          encoded := [PyString_AS_STRING b] } ∧
      (0 ∉ b → PyString_AS_STRING b = b) ∧
      ∀ st' : ModuleState,
        strfry_soundex st' soundex [(.str b : PyObj D)] =
          strfry_soundex st soundex [.str b] ∧
        strfry_metaphone st' metaphone [(.str b : PyObj D)] =
          strfry_metaphone st metaphone [.str b]) ∧
    (∀ u : List Nat,
      strfry_soundex st soundex [(.unicode u : PyObj D)] =
        { ret := .ok (Py_BuildValue_s (soundex (PyString_AS_STRING
            (PyUnicode_AsUTF8String (st.normalize "NFKD" u))))),
          encoded := [PyString_AS_STRING (PyUnicode_AsUTF8String (st.normalize "NFKD" u))] } ∧
      strfry_metaphone st metaphone [(.unicode u : PyObj D)] =
        { ret := .ok (Py_BuildValue_s (metaphone (PyString_AS_STRING
            (PyUnicode_AsUTF8String (st.normalize "NFKD" u))))),
          encoded := [PyString_AS_STRING (PyUnicode_AsUTF8String (st.normalize "NFKD" u))] }) ∧
    (∀ unicodedata : Unicodedata, (initstrfry unicodedata).normalize = unicodedata.normalize) :=
  ⟨fun b => ⟨rfl, rfl, cstr_of_no_nul b, fun _ => ⟨rfl, rfl⟩⟩, fun _ => ⟨rfl, rfl⟩, fun _ => rfl⟩

/-- C10: the entry point `jaro_winkler` returns, as a float object, the value
the four-argument routine gives on `(s1, s2, ignore_case, false)`, also when
the flag is left out (`true`); the routine's values at a fourth argument
`true` never reach a caller: two routines that agree at `false` give the same
entry point on all arguments. -/
theorem jaro_winkler_entry {D : Type} (jaro_winkler : CStr → CStr → Bool → Bool → D)
    (s1 s2 : List Nat) (ignore_case : Bool) (h1 : 0 ∉ s1) (h2 : 0 ∉ s2) :
    strfry_jaro_winkler jaro_winkler [.str s1, .str s2, .bool ignore_case] [] =
        .ok (.float (jaro_winkler s1 s2 ignore_case false)) ∧
    strfry_jaro_winkler jaro_winkler [.str s1, .str s2] [("ignore_case", .bool ignore_case)] =
        .ok (.float (jaro_winkler s1 s2 ignore_case false)) ∧
    strfry_jaro_winkler jaro_winkler [.str s1, .str s2] [] =
        .ok (.float (jaro_winkler s1 s2 true false)) ∧
    ∀ other : CStr → CStr → Bool → Bool → D,
      (∀ a b c, other a b c false = jaro_winkler a b c false) →
      ∀ args keywds, strfry_jaro_winkler other args keywds =
        strfry_jaro_winkler jaro_winkler args keywds := by
  refine ⟨?_, ?_, ?_, ?_⟩
  · unfold strfry_jaro_winkler
    simp only [parse_positional_flag, convert_s_str s1 h1, convert_s_str s2 h2]
    rfl
  · unfold strfry_jaro_winkler
    simp only [parse_keyword_flag, convert_s_str s1 h1, convert_s_str s2 h2]
    rfl
  · unfold strfry_jaro_winkler
    simp only [parse_flag_omitted, convert_s_str s1 h1, convert_s_str s2 h2]
    rfl
  · intro other h args keywds
    unfold strfry_jaro_winkler
    simp only [h]

/-- C10 (witness): the strings `MARTHA` and `MARHTA` with the flag set. -/
theorem jaro_winkler_entry_witness :
    0 ∉ bytes "MARTHA" ∧ 0 ∉ bytes "MARHTA" ∧
      strfry_jaro_winkler (jaro_winkler : CStr → CStr → Bool → Bool → ℚ)
          [.str (bytes "MARTHA"), .str (bytes "MARHTA"), .bool true] [] =
        .ok (.float (jaro_winkler (bytes "MARTHA") (bytes "MARHTA") true false)) :=
  ⟨by decide, by decide,
    (jaro_winkler_entry jaro_winkler (bytes "MARTHA") (bytes "MARHTA") true
      (by decide) (by decide)).1⟩

/-! ## The modelled routines -/

theorem editRecurrence_zero_left (s1 s2 : CStr) (j : Nat) : editRecurrence s1 s2 0 j = j := by
  simp [editRecurrence]

theorem editRecurrence_zero_right (s1 s2 : CStr) (i : Nat) : editRecurrence s1 s2 i 0 = i := by
  cases i <;> simp [editRecurrence]

theorem editRecurrence_succ (s1 s2 : CStr) (i j : Nat) :
    editRecurrence s1 s2 (i + 1) (j + 1) =
      if s1.getD i 0 = s2.getD j 0 then editRecurrence s1 s2 i j
      else 1 + min (editRecurrence s1 s2 i (j + 1))
        (min (editRecurrence s1 s2 (i + 1) j) (editRecurrence s1 s2 i j)) := by
  rw [editRecurrence]

theorem levRowStep_recurrence (s1 s2 : CStr) (i : Nat) :
    ∀ k j : Nat, j + k = s2.length →
      levRowStep (s1.getD i 0) (s2.drop j) ((List.range' j (k + 1)).map (editRecurrence s1 s2 i))
          (editRecurrence s1 s2 (i + 1) j) =
        (List.range' (j + 1) k).map (editRecurrence s1 s2 (i + 1)) := by
  intro k
  induction k with
  | zero =>
    intro j hj
    have : s2.drop j = [] := List.drop_eq_nil_of_le (by omega)
    rw [this]
    simp [levRowStep]
  | succ k ih =>
    intro j hj
    have hlt : j < s2.length := by omega
    have hdrop : s2.drop j = s2.getD j 0 :: s2.drop (j + 1) := by
      rw [List.drop_eq_getElem_cons hlt]
      simp [List.getD_eq_getElem?_getD, List.getElem?_eq_getElem hlt]
    have hrange : (List.range' j (k + 1 + 1)).map (editRecurrence s1 s2 i) =
        editRecurrence s1 s2 i j ::
          (List.range' (j + 1) (k + 1)).map (editRecurrence s1 s2 i) := by
      simp [List.range'_succ]
    rw [hdrop, hrange]
    have hrange2 : (List.range' (j + 1) (k + 1)).map (editRecurrence s1 s2 i) =
        editRecurrence s1 s2 i (j + 1) ::
          (List.range' (j + 1 + 1) k).map (editRecurrence s1 s2 i) := by
      simp [List.range'_succ]
    rw [hrange2, levRowStep, ← hrange2]
    rw [← editRecurrence_succ, ih (j + 1) (by omega)]
    simp [List.range'_succ]

theorem levNextRow_recurrence (s1 s2 : CStr) (i : Nat) :
    levNextRow (s1.getD i 0) s2 ((List.range (s2.length + 1)).map (editRecurrence s1 s2 i)) =
      (List.range (s2.length + 1)).map (editRecurrence s1 s2 (i + 1)) := by
  have hhead : ((List.range (s2.length + 1)).map (editRecurrence s1 s2 i)).headD 0 = i := by
    rw [List.range_eq_range', List.range'_succ]
    simp [editRecurrence_zero_right]
  unfold levNextRow
  rw [hhead]
  have h := levRowStep_recurrence s1 s2 i s2.length 0 (by omega)
  rw [editRecurrence_zero_right] at h
  simp only [List.drop_zero, Nat.zero_add] at h
  rw [List.range_eq_range', h]
  rw [List.range'_succ]
  simp [editRecurrence_zero_right]

theorem levFold_recurrence (s1 s2 : CStr) :
    ∀ rest pre : CStr, s1 = pre ++ rest →
      rest.foldl (fun row a => levNextRow a s2 row)
          ((List.range (s2.length + 1)).map (editRecurrence s1 s2 pre.length)) =
        (List.range (s2.length + 1)).map (editRecurrence s1 s2 s1.length) := by
  intro rest
  induction rest with
  | nil =>
    intro pre h
    simp [h]
  | cons a rest ih =>
    intro pre h
    have ha : s1.getD pre.length 0 = a := by
      rw [h, List.getD_eq_getElem?_getD, List.getElem?_append_right (Nat.le_refl _)]
      simp
    rw [List.foldl_cons, ← ha, levNextRow_recurrence]
    have := ih (pre ++ [a]) (by simp [h])
    simpa using this

theorem levenshtein_eq_recurrence (s1 s2 : CStr) :
    levenshtein_distance s1 s2 = editRecurrence s1 s2 s1.length s2.length := by
  unfold levenshtein_distance
  have h0 : List.range (s2.length + 1) =
      (List.range (s2.length + 1)).map (editRecurrence s1 s2 ([] : CStr).length) := by
    have hid : editRecurrence s1 s2 ([] : CStr).length = id :=
      funext (fun j => editRecurrence_zero_left s1 s2 j)
    rw [hid, List.map_id]
  rw [h0, levFold_recurrence s1 s2 s1 [] (by simp)]
  simp [List.range_succ]

/-- C6: the modelled `levenshtein_distance` (rolling rows) is the value
`d[len1][len2]` of the unit-cost recurrence `d[0][j] = j`, `d[i][0] = i`,
`d[i][j] = d[i-1][j-1]` on equal characters and one more than the least of the
three neighbours otherwise, on the raw bytes: `a` and `A` are one edit apart,
and `kitten`, `sitting` three, also through the entry point. -/
theorem levenshtein_is_edit_recurrence :
    (∀ s1 s2 : CStr,
      levenshtein_distance s1 s2 = editRecurrence s1 s2 s1.length s2.length) ∧
    (∀ (s1 s2 : CStr) (i j : Nat),
      editRecurrence s1 s2 0 j = j ∧ editRecurrence s1 s2 i 0 = i ∧
      editRecurrence s1 s2 (i + 1) (j + 1) =
        if s1.getD i 0 = s2.getD j 0 then editRecurrence s1 s2 i j
        else 1 + min (editRecurrence s1 s2 i (j + 1))
          (min (editRecurrence s1 s2 (i + 1) j) (editRecurrence s1 s2 i j))) ∧
    levenshtein_distance (bytes "kitten") (bytes "sitting") = 3 ∧
    levenshtein_distance (bytes "a") (bytes "A") = 1 ∧
    strfry_levenshtein_distance levenshtein_distance
        [(.str (bytes "kitten") : PyObj ℚ), .str (bytes "sitting")] = .ok (.int 3) :=
  ⟨levenshtein_eq_recurrence,
    fun s1 s2 i j => ⟨editRecurrence_zero_left s1 s2 j, editRecurrence_zero_right s1 s2 i,
      editRecurrence_succ s1 s2 i j⟩,
    by decide, by decide,
    congrArg Except.ok (by decide : (Py_BuildValue_I (toUnsigned (levenshtein_distance
      (bytes "kitten") (bytes "sitting"))) : PyObj ℚ) = .int 3)⟩

theorem soundexDigit_isDigit (u d : Nat) (h : soundexDigit u = some d) :
    isAsciiDigit d = true := by
  unfold soundexDigit at h
  split_ifs at h <;> (injection h with h; subst h; decide)

theorem soundexDigits_isDigit (l : List Nat) :
    ∀ prev : Option Nat, ∀ d ∈ soundexDigits prev l, isAsciiDigit d = true := by
  induction l with
  | nil =>
    intro prev d hd
    simp [soundexDigits] at hd
  | cons u rest ih =>
    intro prev d hd
    unfold soundexDigits at hd
    split_ifs at hd with hhw
    · exact ih prev d hd
    · split at hd
      · exact ih _ d hd
      · rename_i d0 hd0
        split_ifs at hd with hprev
        · exact ih prev d hd
        · rcases List.mem_cons.mp hd with h | h
          · rw [h]
            exact soundexDigit_isDigit u d0 hd0
          · exact ih _ d h

theorem toUpper_of_letter (f : Nat) (h : isAsciiLetter f = true) :
    65 ≤ toUpper f ∧ toUpper f ≤ 90 := by
  unfold isAsciiLetter at h
  unfold toUpper
  simp only [Bool.or_eq_true, Bool.and_eq_true, decide_eq_true_eq] at h
  split_ifs <;> omega

theorem soundex_of_letter (s : CStr) (h : ∃ c ∈ s, isAsciiLetter c = true) :
    ∃ f d1 d2 d3, s.find? isAsciiLetter = some f ∧ soundex s = [toUpper f, d1, d2, d3] ∧
      (65 ≤ toUpper f ∧ toUpper f ≤ 90) ∧
      isAsciiDigit d1 = true ∧ isAsciiDigit d2 = true ∧ isAsciiDigit d3 = true := by
  obtain ⟨c, hc, hcl⟩ := h
  have hmem : c ∈ s.filter isAsciiLetter := List.mem_filter.mpr ⟨hc, hcl⟩
  have hfind : (s.filter isAsciiLetter).head? = s.find? isAsciiLetter := List.filter_head? _ _
  cases hfl : s.filter isAsciiLetter with
  | nil => rw [hfl] at hmem; cases hmem
  | cons f rest =>
    have hf : isAsciiLetter f = true := by
      have : f ∈ s.filter isAsciiLetter := by rw [hfl]; exact List.mem_cons_self _ _
      exact (List.mem_filter.mp this).2
    rw [hfl] at hfind
    have hlen : (((soundexDigits (soundexDigit (toUpper f)) (rest.map toUpper)) ++
        bytes "000").take 3).length = 3 := by
      rw [List.length_take, List.length_append]
      have : (bytes "000").length = 3 := by decide
      omega
    have hdig : ∀ d ∈ ((soundexDigits (soundexDigit (toUpper f)) (rest.map toUpper)) ++
        bytes "000").take 3, isAsciiDigit d = true := by
      intro d hd
      rcases List.mem_append.mp (List.mem_of_mem_take hd) with h | h
      · exact soundexDigits_isDigit _ _ d h
      · have hz : ∀ z ∈ bytes "000", isAsciiDigit z = true := by decide
        exact hz d h
    have hsx : soundex s = toUpper f ::
        ((soundexDigits (soundexDigit (toUpper f)) (rest.map toUpper)) ++ bytes "000").take 3 := by
      unfold soundex
      rw [hfl]
      rfl
    generalize ((soundexDigits (soundexDigit (toUpper f)) (rest.map toUpper)) ++
        bytes "000").take 3 = ds at hlen hdig hsx
    match ds, hlen with
    | [d1, d2, d3], _ =>
      refine ⟨f, d1, d2, d3, ?_, hsx, toUpper_of_letter f hf, ?_, ?_, ?_⟩
      · simpa using hfind.symm
      · exact hdig d1 (by simp)
      · exact hdig d2 (by simp)
      · exact hdig d3 (by simp)

theorem commonLead_eq (cap : Nat) :
    ∀ a b : CStr, commonLead cap a b =
      min cap ((a.zip b).takeWhile (fun p => p.1 == p.2)).length := by
  induction cap with
  | zero => intro a b; simp [commonLead]
  | succ cap ih =>
    intro a b
    cases a with
    | nil => simp [commonLead]
    | cons x as =>
      cases b with
      | nil => simp [commonLead]
      | cons y bs =>
        by_cases hxy : x = y
        · simp [commonLead, hxy, ih as bs, List.takeWhile_cons]
          omega
        · simp [commonLead, hxy, List.takeWhile_cons]


theorem jaro_low_example :
    (jaro_distance (bytes "axxxxxxx") (bytes "ayyyyyyy") true : ℚ) = 5 / 12 := by
  have hc : jaroCounts (folded true (bytes "axxxxxxx")) (folded true (bytes "ayyyyyyy")) =
      (1, 0) := by decide
  have h1 : (folded true (bytes "axxxxxxx")).length = 8 := by decide
  have h2 : (folded true (bytes "ayyyyyyy")).length = 8 := by decide
  simp only [jaro_distance, hc, h1, h2]
  norm_num

theorem jaro_martha :
    (jaro_distance (bytes "MARTHA") (bytes "MARHTA") true : ℚ) = 17 / 18 := by
  have hc : jaroCounts (folded true (bytes "MARTHA")) (folded true (bytes "MARHTA")) =
      (6, 1) := by decide
  have h1 : (folded true (bytes "MARTHA")).length = 6 := by decide
  have h2 : (folded true (bytes "MARHTA")).length = 6 := by decide
  simp only [jaro_distance, hc, h1, h2]
  norm_num

theorem jw_martha :
    (jaro_winkler (bytes "MARTHA") (bytes "MARHTA") true false : ℚ) = 173 / 180 := by
  have hl : commonLead 4 (folded true (bytes "MARTHA")) (folded true (bytes "MARHTA")) = 3 := by
    decide
  simp only [jaro_winkler, jaro_martha, hl]
  norm_num

/-- C7: on an input with at least one ASCII letter the modelled `soundex`
returns four characters: the first letter of the input in upper case, then
three digits.  `Robert` and `Rupert` both give `R163`, also through the entry
point. -/
theorem soundex_shape (s : CStr) (h : ∃ c ∈ s, isAsciiLetter c = true) :
    (∃ f d1 d2 d3, s.find? isAsciiLetter = some f ∧ soundex s = [toUpper f, d1, d2, d3] ∧
      (65 ≤ toUpper f ∧ toUpper f ≤ 90) ∧
      isAsciiDigit d1 = true ∧ isAsciiDigit d2 = true ∧ isAsciiDigit d3 = true) ∧
    (soundex s).length = 4 ∧
    soundex (bytes "Robert") = bytes "R163" ∧ soundex (bytes "Rupert") = bytes "R163" ∧
    (strfry_soundex { normalize := keepText } (fun t => some (soundex t))
        [(.str (bytes "Robert") : PyObj ℚ)]).ret = .ok (.str (bytes "R163")) := by
  have hshape := soundex_of_letter s h
  refine ⟨hshape, ?_, by decide, by decide, ?_⟩
  · obtain ⟨f, d1, d2, d3, _, hs, _⟩ := hshape
    rw [hs]
    rfl
  · exact congrArg Except.ok (by decide :
      (Py_BuildValue_s (some (soundex (PyString_AS_STRING (bytes "Robert")))) : PyObj ℚ) =
        .str (bytes "R163"))

/-- C7 (witness): the input `r2-d2`, whose first letter is lower case. -/
theorem soundex_shape_witness :
    (∃ c ∈ bytes "r2-d2", isAsciiLetter c = true) ∧ (soundex (bytes "r2-d2")).length = 4 :=
  ⟨⟨114, by decide, by decide⟩,
    (soundex_shape (bytes "r2-d2") ⟨114, by decide, by decide⟩).2.1⟩

/-- C5: for all strings and either value of the flag, the modelled
`jaro_winkler` is `jd + l * 0.1 * (1 - jd)` with `jd` the modelled
`jaro_distance` and `l` the number of leading positions at which the (folded,
when the flag is set) strings agree, at most 4.  No threshold on `jd` gates
the boost: `axxxxxxx` and `ayyyyyyy` have `jd = 5/12`, `l = 1` and the boosted
value `19/40`. -/
theorem jaro_winkler_formula {D : Type} [NatCast D] [Add D] [Sub D] [Mul D] [Div D]
    [OfScientific D] (s1 s2 : CStr) (ignore_case long_tolerance : Bool) :
    (jaro_winkler s1 s2 ignore_case long_tolerance : D) =
        jaro_distance s1 s2 ignore_case +
          ((min 4 (((folded ignore_case s1).zip (folded ignore_case s2)).takeWhile
            (fun p => p.1 == p.2)).length : Nat) : D) * 0.1 *
            (1.0 - jaro_distance s1 s2 ignore_case) ∧
    ((jaro_distance (bytes "axxxxxxx") (bytes "ayyyyyyy") true : ℚ) = 5 / 12 ∧
      (jaro_winkler (bytes "axxxxxxx") (bytes "ayyyyyyy") true false : ℚ) = 19 / 40) := by
  refine ⟨?_, jaro_low_example, ?_⟩
  · unfold jaro_winkler
    simp only [commonLead_eq]
  · have hl : commonLead 4 (folded true (bytes "axxxxxxx")) (folded true (bytes "ayyyyyyy")) =
        1 := by decide
    simp only [jaro_winkler, jaro_low_example, hl]
    norm_num

end Strfry
